import Mathlib

/-!
Verification of the Monte Carlo sampling and estimation core of the
`mit61000-sampling-and-confidence` lecture deck.

The statistical core is scattered across several slide files; each Lean
definition below is a shallow embedding of one identified piece of source
code (file and line references in the doc comments).  JavaScript numbers
are modelled as real numbers; the platform random source `Math.random()`
is abstracted as explicitly supplied draws in `[0,1)`.
-/

open Real

/-- The seven keys of the distribution catalog (`part_008`, line 17). -/
inductive DistKey
  | uniform
  | bernoulli
  | binomial
  | poisson
  | normal
  | exponential
  | uniform_cont
deriving DecidableEq

/-- Truth accessor `getMean` of the catalog (`part_008`, lines 34-137):
the literal values returned by each variant's `getMean()`. -/
noncomputable def getMean : DistKey → ℝ
  | .uniform => 3.5
  | .bernoulli => 0.6
  | .binomial => 5
  | .poisson => 4
  | .normal => 0
  | .exponential => 1
  | .uniform_cont => 0.5

/-- Truth accessor `getStd` of the catalog (`part_008`, lines 34-137):
the literal expressions returned by each variant's `getStd()`. -/
noncomputable def getStd : DistKey → ℝ
  | .uniform => Real.sqrt (35 / 12)
  | .bernoulli => Real.sqrt (0.6 * 0.4)
  | .binomial => Real.sqrt (10 * 0.5 * 0.5)
  | .poisson => 2
  | .normal => 1
  | .exponential => 1
  | .uniform_cont => 1 / Real.sqrt 12

/-- Closed-form true mean of spec section 4.1, instantiated at the coded
parameters (DiscreteUniform k=6, Bernoulli p=0.6, Binomial n=10 p=0.5,
Poisson lam=4, Normal mu=0 sigma=1, Exponential lam=1,
ContinuousUniform a=0 b=1). -/
noncomputable def specTrueMean : DistKey → ℝ
  | .uniform => (6 + 1) / 2
  | .bernoulli => 0.6
  | .binomial => 10 * 0.5
  | .poisson => 4
  | .normal => 0
  | .exponential => 1 / 1
  | .uniform_cont => (0 + 1) / 2

/-- Closed-form true standard deviation of spec section 4.1, instantiated
at the coded parameters. -/
noncomputable def specTrueStd : DistKey → ℝ
  | .uniform => Real.sqrt ((6 ^ 2 - 1) / 12)
  | .bernoulli => Real.sqrt (0.6 * (1 - 0.6))
  | .binomial => Real.sqrt (10 * 0.5 * (1 - 0.5))
  | .poisson => Real.sqrt 4
  | .normal => 1
  | .exponential => 1 / 1
  | .uniform_cont => (1 - 0) / Real.sqrt 12

/-- Per-sample mean as computed by the source loops (`part_009`,
lines 68-75; `DistributionShape.tsx`, lines 339-346): a running
`foldl` sum divided by the sample length. -/
noncomputable def sampleMean (s : List ℝ) : ℝ :=
  s.foldl (fun x v => x + v) 0 / s.length

/-- Per-sample Bessel-corrected standard deviation as computed by the
source loops (`part_009`, lines 77-82; `DistributionShape.tsx`,
lines 347-351): accumulate squared deviations from the sample mean,
divide by n - 1, square-root. -/
noncomputable def sampleStd (s : List ℝ) : ℝ :=
  Real.sqrt ((s.foldl (fun acc v => acc + (v - sampleMean s) ^ 2) 0) /
    ((s.length : ℝ) - 1))

/-- Error taxonomy of spec section 7 relevant to sample statistics. -/
inductive StatError
  | insufficientSampleSize
deriving DecidableEq

/-- A SampleStatistics record (spec section 3), restricted to the mean
and std fields the convergence slides actually compute. -/
structure SampleStatistics where
  mean : ℝ
  std : ℝ

/-- Modelled from the spec: the repository computes sample statistics
inline inside its trial loops and has no `compute` entry point or
`InsufficientSampleSize` error; spec section 4.3 prescribes
`compute(sample) -> SampleStatistics` failing with
`InsufficientSampleSize` when n < 2.  The success path reuses the mean
and std formulas embedded from the source loops. -/
noncomputable def compute (s : List ℝ) : Except StatError SampleStatistics :=
  if s.length < 2 then Except.error StatError.insufficientSampleSize
  else Except.ok ⟨sampleMean s, sampleStd s⟩

/-- A recorded confidence interval (`part_003`, line 10). -/
structure ConfidenceInterval where
  mean : ℝ
  lower : ℝ
  upper : ℝ
  captured : Bool

/-- CI construction inside `takeSample` (`part_003`, lines 19-37):
margin of error = multiplier x standard error, interval bounds at
sample mean plus/minus the margin, `captured` decided once against the
true mean.  The reference call site uses multiplier 2 and
SE = POP_STD / sqrt(n); both are parameters here, as in spec 4.6. -/
noncomputable def takeSampleCI (sampleMean standardError multiplier trueMean : ℝ) :
    ConfidenceInterval :=
  let marginOfError := multiplier * standardError
  let lower := sampleMean - marginOfError
  let upper := sampleMean + marginOfError
  ⟨sampleMean, lower, upper,
    decide (lower ≤ trueMean) && decide (trueMean ≤ upper)⟩

/-- Recording an interval (`part_003`, line 36):
`setIntervals(prev => [...prev.slice(-50), ci])` keeps only the last 50
previously recorded intervals before appending the new one. -/
def record (prev : List ConfidenceInterval) (ci : ConfidenceInterval) :
    List ConfidenceInterval :=
  prev.drop (prev.length - 50) ++ [ci]

/-- Derived capture rate (`part_003`, lines 46-47): percentage of
retained intervals with `captured` set, 0 on the empty tracker. -/
noncomputable def captureRate (intervals : List ConfidenceInterval) : ℝ :=
  if 0 < intervals.length then
    (((intervals.filter fun i => i.captured).length : ℝ) /
      (intervals.length : ℝ)) * 100
  else 0

/-- Tracker reset (`part_003`, line 89): `setIntervals([])`. -/
def resetIntervals : List ConfidenceInterval := []

/-- n successive `record` calls into an initially empty tracker, with
distinct constructed intervals. -/
noncomputable def iterRecord : ℕ → List ConfidenceInterval
  | 0 => []
  | k + 1 => record (iterRecord k) (takeSampleCI (k : ℝ) 1 2 100)

/-- Box-Muller normal sampler of the catalog (`part_008`,
lines 106-111), as a function of the two uniform draws `u1`, `u2`
returned by `Math.random()`. -/
noncomputable def normalSample (u1 u2 : ℝ) : ℝ :=
  Real.sqrt (-2 * Real.log u1) * Real.cos (2 * Real.pi * u2)

/-- The argument passed to the logarithm by `normalSample`: the first
uniform draw itself, with no guard. -/
def normalSampleLogArg (u1 : ℝ) : ℝ := u1

/-- Box-Muller transform inside `takeSample` (`part_003`, lines 24-28):
`u = 1 - Math.random()` before the logarithm. -/
noncomputable def ciSampleZ (r1 r2 : ℝ) : ℝ :=
  Real.sqrt (-2 * Real.log (1 - r1)) * Real.cos (2 * Real.pi * r2)

/-- The argument passed to the logarithm by `ciSampleZ`. -/
def ciSampleZLogArg (r1 : ℝ) : ℝ := 1 - r1

/-- Trial aggregation `runForSampleSize` (`part_009`, lines 59-93;
same shape as `runUniformSim`, `DistributionShape.tsx` lines 333-355).
The per-trial random draws are abstracted as the injected list
`samples` (one entry per trial); each trial accumulates the absolute
errors of the sample mean and the Bessel-corrected sample std against
the supplied truth, and the accumulators are divided by the trial
count and the truth and scaled to a percentage. -/
noncomputable def runForSampleSize (samples : List (List ℝ))
    (popMean popStd : ℝ) : ℝ × ℝ :=
  let totals := samples.foldl
    (fun acc s => (acc.1 + |sampleMean s - popMean|, acc.2 + |sampleStd s - popStd|))
    ((0 : ℝ), (0 : ℝ))
  (totals.1 / (samples.length : ℝ) / popMean * 100,
   totals.2 / (samples.length : ℝ) / popStd * 100)

/-- Trial-count policy of `DistributionShape.tsx`, lines 30-31:
`Math.max(1000, Math.min(100000, Math.floor(1000000 / n)))`. -/
def getTrials (n : ℕ) : ℕ := max 1000 (min 100000 (1000000 / n))

/-- Fixed trial count of `part_009`, lines 19-20. -/
def TRIALS_PER_SIZE : ℕ := 500

/-- Magnitude-to-luminosity conversion (`part_009`, lines 14-16;
`DistributionShape.tsx`, lines 23-25).  Catalog magnitudes are finite
decimal JSON numbers, modelled as rationals so the filter below stays
executable. -/
def magToLuminosity (mag : ℚ) : ℚ := 100 - mag * 10

/-- Star population loader of `DistributionShape.tsx`, lines 276-284:
derive a luminosity per entry and keep only values strictly inside
(0, 80). -/
def loadShapeLums (mags : List ℚ) : List ℚ :=
  (mags.map magToLuminosity).filter fun l => decide (0 < l ∧ l < 80)

/-- Star population loader of `part_009` (EstimatorConvergence),
lines 41-46: derive a luminosity per entry with no filtering. -/
def loadConvLums (mags : List ℚ) : List ℚ :=
  mags.map magToLuminosity

/-- Population mean, divide-by-N (`DistributionShape.tsx`,
lines 287-291). -/
noncomputable def popMeanN (l : List ℝ) : ℝ :=
  l.foldl (fun x v => x + v) 0 / l.length

/-- Population standard deviation, divide-by-N
(`DistributionShape.tsx`, lines 293-300). -/
noncomputable def popStdN (l : List ℝ) : ℝ :=
  Real.sqrt ((l.foldl (fun acc v => acc + (v - popMeanN l) ^ 2) 0) / l.length)

/-- Population skewness, third standardized moment with divide-by-N
(`DistributionShape.tsx`, line 301). -/
noncomputable def popSkewnessN (l : List ℝ) : ℝ :=
  ((l.foldl (fun acc v => acc + (v - popMeanN l) ^ 3) 0) / l.length) /
    (popStdN l) ^ 3

/-- Star statistics as computed by `DistributionShape.tsx`,
lines 276-303: population mean, std and skewness of the filtered
luminosities. -/
noncomputable def starStatsOfMags (mags : List ℚ) : ℝ × ℝ × ℝ :=
  (popMeanN ((loadShapeLums mags).map fun q => (q : ℝ)),
   popStdN ((loadShapeLums mags).map fun q => (q : ℝ)),
   popSkewnessN ((loadShapeLums mags).map fun q => (q : ℝ)))

/-- Sample-size schedule of `DistributionShape.tsx`, line 28. -/
def SAMPLE_SIZES : List ℕ :=
  [5, 8, 10, 12, 15, 20, 25, 30, 40, 50, 60, 75, 90, 100, 125, 150,
   175, 200, 250, 300, 400, 500]

/-- One-step-per-frame simulation loop of `runSimulation`
(`DistributionShape.tsx`, lines 392-414): before each sample-size step
the abort flag is read (`abort step` models `abortRef.current` as seen
before step number `step`); an aborted or exhausted loop stops with the
results accumulated so far, otherwise the uniform and stars aggregates
for the current size are appended and the loop recurses.  The step
bodies `usim`/`ssim` are the synchronous trial batches, which contain
no abort check. -/
def runLoop (usim ssim : ℕ → ℝ) (abort : ℕ → Bool) :
    ℕ → List ℕ → List ℝ × List ℝ
  | _, [] => ([], [])
  | step, n :: rest =>
    if abort step then ([], [])
    else
      let p := runLoop usim ssim abort (step + 1) rest
      (usim n :: p.1, ssim n :: p.2)

/-- Number of sample-size steps completed before the first abort signal,
starting at step index `step` with `len` steps remaining. -/
def countRun (abort : ℕ → Bool) : ℕ → ℕ → ℕ
  | _, 0 => 0
  | step, len + 1 =>
    if abort step then 0 else countRun abort (step + 1) len + 1

/-- Full simulation run over the schedule (`DistributionShape.tsx`,
lines 386-415). -/
def runSimulation (usim ssim : ℕ → ℝ) (abort : ℕ → Bool) : List ℝ × List ℝ :=
  runLoop usim ssim abort 0 SAMPLE_SIZES

/-- C1: every catalog variant's truth accessors return exactly the
closed-form values of spec section 4.1 at the coded parameters, and the
returned standard deviation is strictly positive. -/
theorem distributions_truth (d : DistKey) :
    getMean d = specTrueMean d ∧ getStd d = specTrueStd d ∧ 0 < getStd d := by
  cases d
  case uniform =>
    refine ⟨by norm_num [getMean, specTrueMean], ?_, ?_⟩
    · show Real.sqrt (35 / 12) = Real.sqrt ((6 ^ 2 - 1) / 12)
      norm_num
    · exact Real.sqrt_pos.mpr (by norm_num)
  case bernoulli =>
    refine ⟨rfl, ?_, ?_⟩
    · show Real.sqrt (0.6 * 0.4) = Real.sqrt (0.6 * (1 - 0.6))
      norm_num
    · exact Real.sqrt_pos.mpr (by norm_num)
  case binomial =>
    refine ⟨by norm_num [getMean, specTrueMean], ?_, ?_⟩
    · show Real.sqrt (10 * 0.5 * 0.5) = Real.sqrt (10 * 0.5 * (1 - 0.5))
      norm_num
    · exact Real.sqrt_pos.mpr (by norm_num)
  case poisson =>
    refine ⟨rfl, ?_, by norm_num [getStd]⟩
    · show (2 : ℝ) = Real.sqrt 4
      rw [show (4 : ℝ) = 2 ^ 2 by norm_num, Real.sqrt_sq (by norm_num : (0:ℝ) ≤ 2)]
  case normal =>
    exact ⟨rfl, rfl, by norm_num [getStd]⟩
  case exponential =>
    exact ⟨by norm_num [getMean, specTrueMean], by norm_num [getStd, specTrueStd],
      by norm_num [getStd]⟩
  case uniform_cont =>
    refine ⟨by norm_num [getMean, specTrueMean], ?_, ?_⟩
    · show 1 / Real.sqrt 12 = (1 - 0) / Real.sqrt 12
      norm_num
    · exact div_pos one_pos (Real.sqrt_pos.mpr (by norm_num))

/-- A left fold adding list elements onto an accumulator computes the
accumulator plus the list sum. -/
theorem foldl_add_eq (l : List ℝ) (a : ℝ) :
    l.foldl (fun x v => x + v) a = a + l.sum := by
  induction l generalizing a with
  | nil => simp
  | cons x xs ih => simp [ih, add_assoc]

/-- A left fold adding `f` of each element onto an accumulator computes
the accumulator plus the sum of the mapped list. -/
theorem foldl_add_map_eq {α : Type} (f : α → ℝ) (l : List α) (a : ℝ) :
    l.foldl (fun x v => x + f v) a = a + (l.map f).sum := by
  induction l generalizing a with
  | nil => simp
  | cons x xs ih => simp [ih, add_assoc]

/-- A left fold accumulating two sums componentwise computes the pair of
mapped sums. -/
theorem foldl_pair_eq {α : Type} (f g : α → ℝ) (l : List α) (a b : ℝ) :
    l.foldl (fun acc s => (acc.1 + f s, acc.2 + g s)) (a, b)
      = (a + (l.map f).sum, b + (l.map g).sum) := by
  induction l generalizing a b with
  | nil => simp
  | cons x xs ih => simp [ih, add_assoc]

/-- Length of one `record` step: the retained window plus the new
interval. -/
theorem record_length (t : List ConfidenceInterval) (c : ConfidenceInterval) :
    (record t c).length = min t.length 50 + 1 := by
  have h : (record t c).length = t.length - (t.length - 50) + 1 := by
    simp [record]
  omega

/-- Length of the tracker after `k` successive records. -/
theorem iterRecord_length (k : ℕ) : (iterRecord k).length = min k 51 := by
  induction k with
  | zero => simp [iterRecord]
  | succ k ih => rw [iterRecord, record_length, ih]; omega

/-- The simulation loop yields exactly the completed prefix of the
schedule, mapped through the per-step aggregators. -/
theorem runLoop_take (usim ssim : ℕ → ℝ) (abort : ℕ → Bool) :
    ∀ (sizes : List ℕ) (step : ℕ),
      runLoop usim ssim abort step sizes
        = ((sizes.take (countRun abort step sizes.length)).map usim,
           (sizes.take (countRun abort step sizes.length)).map ssim) := by
  intro sizes
  induction sizes with
  | nil => intro step; simp [runLoop, countRun]
  | cons n rest ih =>
    intro step
    by_cases h : abort step
    · simp [runLoop, countRun, h]
    · simp [runLoop, countRun, h, ih (step + 1)]

/-- C2: the sample standard deviation is the Bessel-corrected estimator
(sum of squared deviations from the sample mean, divided by n - 1,
square-rooted); `compute` on a sample of size 1 fails with
`InsufficientSampleSize` and on size 2 succeeds. -/
theorem compute_bessel_std (s : List ℝ) (x y : ℝ) (h : 2 ≤ s.length) :
    compute s = Except.ok ⟨sampleMean s, sampleStd s⟩
    ∧ sampleMean s = s.sum / s.length
    ∧ sampleStd s
        = Real.sqrt (((s.map fun v => (v - s.sum / s.length) ^ 2).sum) /
            ((s.length : ℝ) - 1))
    ∧ compute [x] = Except.error StatError.insufficientSampleSize
    ∧ ∃ st : SampleStatistics, compute [x, y] = Except.ok st := by
  have hmean : sampleMean s = s.sum / s.length := by
    rw [sampleMean, foldl_add_eq, zero_add]
  refine ⟨?_, hmean, ?_, ?_, ?_⟩
  · have hlt : ¬ s.length < 2 := by omega
    simp [compute, hlt]
  · rw [sampleStd, foldl_add_map_eq (fun v => (v - sampleMean s) ^ 2) s 0,
      zero_add, hmean]
  · simp [compute]
  · exact ⟨⟨sampleMean [x, y], sampleStd [x, y]⟩, by simp [compute]⟩

/-- Witness for `compute_bessel_std` at the concrete sample [0, 1]. -/
theorem compute_bessel_std_witness :
    2 ≤ ([0, 1] : List ℝ).length
    ∧ (compute [0, 1] = Except.ok ⟨sampleMean [0, 1], sampleStd [0, 1]⟩
       ∧ sampleMean [0, 1]
           = ([0, 1] : List ℝ).sum / ([0, 1] : List ℝ).length
       ∧ sampleStd [0, 1]
           = Real.sqrt (((([0, 1] : List ℝ).map fun v =>
                 (v - ([0, 1] : List ℝ).sum / ([0, 1] : List ℝ).length) ^ 2).sum) /
               ((([0, 1] : List ℝ).length : ℝ) - 1))
       ∧ compute [(0 : ℝ)] = Except.error StatError.insufficientSampleSize
       ∧ ∃ st : SampleStatistics, compute [(0 : ℝ), 1] = Except.ok st) :=
  ⟨by decide, compute_bessel_std [0, 1] 0 1 (by decide)⟩

/-- C3: every interval built by the CI construction has
lower = sampleMean - multiplier x standardError,
upper = sampleMean + multiplier x standardError, and `captured` holds
exactly when the true mean lies between the stored bounds. -/
theorem takeSampleCI_fields (m se mult t : ℝ) :
    (takeSampleCI m se mult t).lower = m - mult * se
    ∧ (takeSampleCI m se mult t).upper = m + mult * se
    ∧ ((takeSampleCI m se mult t).captured = true
        ↔ (takeSampleCI m se mult t).lower ≤ t
          ∧ t ≤ (takeSampleCI m se mult t).upper) := by
  refine ⟨rfl, rfl, ?_⟩
  simp [takeSampleCI, Bool.and_eq_true, decide_eq_true_eq]

/-- C4 counterexample: after 51 records the tracker holds 51 intervals,
and recording a 52nd interval leaves the length at 51 even though the
new interval is present, so a previously recorded interval was removed
-- the sequence is not append-only. -/
theorem coverage_tracker_counterexample :
    (iterRecord 51).length = 51
    ∧ (record (iterRecord 51) (takeSampleCI 0 1 2 100)).length = 51
    ∧ takeSampleCI 0 1 2 100 ∈ record (iterRecord 51) (takeSampleCI 0 1 2 100) := by
  refine ⟨?_, ?_, ?_⟩
  · rw [iterRecord_length]
    omega
  · rw [record_length, iterRecord_length]
    omega
  · simp [record]

/-- C4 amended: `record` keeps only the 50 most recent previously
recorded intervals before appending (pure append while at most 50 are
stored, at most 51 retained overall), `captureRate` is the captured
percentage over the retained window, and reset clears the sequence. -/
theorem coverage_tracker_window (prev : List ConfidenceInterval)
    (ci : ConfidenceInterval) (h : prev.length ≤ 50) :
    record prev ci = prev ++ [ci]
    ∧ (∀ t c, (record t c).length = min t.length 50 + 1)
    ∧ (∀ t c, (record t c).length ≤ 51)
    ∧ (∀ l, 0 < l.length →
        captureRate l
          = (((l.filter fun i => i.captured).length : ℝ) / l.length) * 100)
    ∧ resetIntervals.length = 0
    ∧ captureRate resetIntervals = 0 := by
  refine ⟨?_, record_length, ?_, ?_, rfl, ?_⟩
  · have h0 : prev.length - 50 = 0 := by omega
    simp [record, h0]
  · intro t c
    rw [record_length]
    omega
  · intro l hl
    rw [captureRate, if_pos hl]
  · simp [captureRate, resetIntervals]

/-- Witness for `coverage_tracker_window` at the empty tracker. -/
theorem coverage_tracker_window_witness :
    ([] : List ConfidenceInterval).length ≤ 50
    ∧ (record [] (takeSampleCI 0 1 2 100) = [] ++ [takeSampleCI 0 1 2 100]
       ∧ (∀ t c, (record t c).length = min t.length 50 + 1)
       ∧ (∀ t c, (record t c).length ≤ 51)
       ∧ (∀ l, 0 < l.length →
           captureRate l
             = (((l.filter fun i => i.captured).length : ℝ) / l.length) * 100)
       ∧ resetIntervals.length = 0
       ∧ captureRate resetIntervals = 0) :=
  ⟨by decide, coverage_tracker_window [] (takeSampleCI 0 1 2 100) (by decide)⟩

/-- C5: the catalog's Box-Muller sampler passes the first uniform draw
to the logarithm with no guard, so at u1 = 0 (a value the platform
uniform source can return) the argument of the logarithm is 0, not
strictly positive; the CI slide's variant maps the same draw to 1. -/
theorem normalSample_unguarded_log_arg :
    normalSampleLogArg 0 = 0
    ∧ ¬ (0 < normalSampleLogArg 0)
    ∧ ciSampleZLogArg 0 = 1 := by
  refine ⟨rfl, ?_, ?_⟩ <;> norm_num [normalSampleLogArg, ciSampleZLogArg]

/-- C6: for sample size n >= 2 and trial count T >= 1, the trial
aggregation over the T per-trial samples returns, for each estimator,
the accumulated absolute error divided by T and by the truth value and
scaled by 100 -- the mean absolute percentage error over the trials. -/
theorem runForSampleSize_mape (samples : List (List ℝ)) (mu sigma : ℝ)
    (T n : ℕ) (hT : samples.length = T) (hT1 : 1 ≤ T)
    (hn : ∀ s ∈ samples, s.length = n) (hn2 : 2 ≤ n) :
    runForSampleSize samples mu sigma
      = ((samples.map fun s => |sampleMean s - mu|).sum / (T : ℝ) / mu * 100,
         (samples.map fun s => |sampleStd s - sigma|).sum / (T : ℝ) / sigma * 100) := by
  simp only [runForSampleSize]
  rw [foldl_pair_eq (fun s => |sampleMean s - mu|)
    (fun s => |sampleStd s - sigma|) samples 0 0]
  simp [hT]

/-- Witness for `runForSampleSize_mape` with one trial of size 2. -/
theorem runForSampleSize_mape_witness :
    ([[(0 : ℝ), 1]] : List (List ℝ)).length = 1
    ∧ 1 ≤ 1
    ∧ (∀ s ∈ ([[(0 : ℝ), 1]] : List (List ℝ)), s.length = 2)
    ∧ 2 ≤ 2
    ∧ runForSampleSize [[(0 : ℝ), 1]] 1 1
        = ((([[(0 : ℝ), 1]] : List (List ℝ)).map fun s => |sampleMean s - 1|).sum
             / ((1 : ℕ) : ℝ) / 1 * 100,
           (([[(0 : ℝ), 1]] : List (List ℝ)).map fun s => |sampleStd s - 1|).sum
             / ((1 : ℕ) : ℝ) / 1 * 100) :=
  ⟨rfl, le_refl 1,
    by
      intro s hs
      rw [List.mem_singleton] at hs
      subst hs
      rfl,
    le_refl 2,
    runForSampleSize_mape [[(0 : ℝ), 1]] 1 1 1 2 rfl (le_refl 1)
      (by
        intro s hs
        rw [List.mem_singleton] at hs
        subst hs
        rfl)
      (le_refl 2)⟩

/-- C7 counterexample: the EstimatorConvergence Trial Runner uses the
fixed trial count 500, which is not produced by the clamping formula
and lies outside [1000, 100000]. -/
theorem trialCount_counterexample :
    TRIALS_PER_SIZE = 500
    ∧ ¬ (1000 ≤ TRIALS_PER_SIZE)
    ∧ TRIALS_PER_SIZE ≠ getTrials 5 := by
  refine ⟨rfl, ?_, ?_⟩ <;> decide

/-- C7 amended: the DistributionShape trial-count policy is
max(1000, min(100000, floor(1000000 / n))) and always lies in
[1000, 100000] for n >= 1, while the EstimatorConvergence slide uses a
fixed 500 trials per size. -/
theorem getTrials_bounds (n : ℕ) (h : 1 ≤ n) :
    getTrials n = max 1000 (min 100000 (1000000 / n))
    ∧ 1000 ≤ getTrials n
    ∧ getTrials n ≤ 100000
    ∧ TRIALS_PER_SIZE = 500 := by
  refine ⟨rfl, le_max_left _ _, ?_, rfl⟩
  exact max_le (by norm_num) (min_le_left _ _)

/-- Witness for `getTrials_bounds` at n = 7. -/
theorem getTrials_bounds_witness :
    1 ≤ 7
    ∧ (getTrials 7 = max 1000 (min 100000 (1000000 / 7))
       ∧ 1000 ≤ getTrials 7
       ∧ getTrials 7 ≤ 100000
       ∧ TRIALS_PER_SIZE = 500) :=
  ⟨by decide, getTrials_bounds 7 (by decide)⟩

/-- C8 counterexample: the EstimatorConvergence loader applies no
filter, so a catalog entry with magnitude 12 contributes the
luminosity -20, outside the open interval (0, 80), to its population,
while the DistributionShape loader drops it. -/
theorem convLoader_unfiltered_counterexample :
    loadConvLums [12] = [-20]
    ∧ ¬ ((0 : ℚ) < -20 ∧ (-20 : ℚ) < 80)
    ∧ loadShapeLums [12] = [] := by
  refine ⟨?_, ?_, ?_⟩
  · simp only [loadConvLums, List.map_cons, List.map_nil, magToLuminosity]
    norm_num
  · norm_num
  · simp only [loadShapeLums, List.map_cons, List.map_nil, magToLuminosity,
      List.filter_cons, List.filter_nil]
    norm_num

/-- C8 amended: the DistributionShape loader derives
luminosity = 100 - magnitude x 10 per entry, keeps exactly the derived
values strictly inside (0, 80) -- it is the filtered form of the
unfiltered EstimatorConvergence loader -- and the population mean, std
and skewness are computed on the filtered list. -/
theorem loadShapeLums_range (mags : List ℚ) (l : ℚ)
    (h : l ∈ loadShapeLums mags) :
    (0 < l ∧ l < 80)
    ∧ loadShapeLums mags
        = (loadConvLums mags).filter (fun v => decide (0 < v ∧ v < 80))
    ∧ starStatsOfMags mags
        = (popMeanN ((loadShapeLums mags).map fun q => (q : ℝ)),
           popStdN ((loadShapeLums mags).map fun q => (q : ℝ)),
           popSkewnessN ((loadShapeLums mags).map fun q => (q : ℝ))) := by
  refine ⟨?_, rfl, rfl⟩
  exact of_decide_eq_true (List.mem_filter.mp h).2

/-- Witness for `loadShapeLums_range` at the one-entry catalog [5]. -/
theorem loadShapeLums_range_witness :
    (50 : ℚ) ∈ loadShapeLums [5]
    ∧ (((0 : ℚ) < 50 ∧ (50 : ℚ) < 80)
       ∧ loadShapeLums [5]
           = (loadConvLums [5]).filter (fun v => decide (0 < v ∧ v < 80))
       ∧ starStatsOfMags [5]
           = (popMeanN ((loadShapeLums [5]).map fun q => (q : ℝ)),
              popStdN ((loadShapeLums [5]).map fun q => (q : ℝ)),
              popSkewnessN ((loadShapeLums [5]).map fun q => (q : ℝ)))) := by
  have hmem : (50 : ℚ) ∈ loadShapeLums [5] := by
    have h : loadShapeLums [5] = [50] := by
      simp only [loadShapeLums, List.map_cons, List.map_nil, magToLuminosity,
        List.filter_cons, List.filter_nil]
      norm_num
    rw [h]
    exact List.mem_singleton.mpr rfl
  exact ⟨hmem, loadShapeLums_range [5] 50 hmem⟩

/-- C9: for every abort schedule, the simulation run stops at the first
abort signal seen between sample-size steps and returns exactly the
aggregates for the completed prefix of the schedule, in schedule order,
with the uniform and stars result lists of equal length. -/
theorem runSimulation_prefix (usim ssim : ℕ → ℝ) (abort : ℕ → Bool) :
    runSimulation usim ssim abort
      = ((SAMPLE_SIZES.take (countRun abort 0 SAMPLE_SIZES.length)).map usim,
         (SAMPLE_SIZES.take (countRun abort 0 SAMPLE_SIZES.length)).map ssim)
    ∧ (runSimulation usim ssim abort).1.length
        = (runSimulation usim ssim abort).2.length := by
  have h : runSimulation usim ssim abort
      = ((SAMPLE_SIZES.take (countRun abort 0 SAMPLE_SIZES.length)).map usim,
         (SAMPLE_SIZES.take (countRun abort 0 SAMPLE_SIZES.length)).map ssim) :=
    runLoop_take usim ssim abort SAMPLE_SIZES 0
  refine ⟨h, ?_⟩
  rw [h]
  simp

/-- C10: the interval-membership test stored in `captured` is
equivalent to bounding the absolute deviation of the sample mean from
the true mean by the margin of error. -/
theorem captured_iff_abs_dev (m se mult t : ℝ) :
    (takeSampleCI m se mult t).captured = true ↔ |m - t| ≤ mult * se := by
  have h : (takeSampleCI m se mult t).captured = true
      ↔ (m - mult * se ≤ t ∧ t ≤ m + mult * se) := by
    simp [takeSampleCI, Bool.and_eq_true, decide_eq_true_eq]
  rw [h, abs_sub_le_iff]
  constructor
  · rintro ⟨h1, h2⟩
    exact ⟨by linarith, by linarith⟩
  · rintro ⟨h1, h2⟩
    exact ⟨by linarith, by linarith⟩
